import Mathlib

/-! Merge fields client (`lists/mergefields`).

A shallow embedding of `lists/mergefields/mergefields.go`: the parameter and result
records with their struct tags, the two custom query-string encoders, and the five
operations `New`, `Get`, `GetMergeField`, `Update` and `Delete`, each running against
an arbitrary gateway (`mailchimp.Call`) and recording every call it issues.

The Go standard-library pieces the package relies on (`strings.Join`, `strconv.Itoa`,
`fmt.Sprintf` with `%s`, `reflect.StructTag.Get`, the field naming rules of
`encoding/json`) are modelled first.
-/

namespace Mergefields

/-! ## Standard library -/

namespace strings

/-- Go `strings.Join`: nothing for no elements, the element itself for one, otherwise the
first element followed by each further element preceded by the separator. -/
def Join (elems : List String) (sep : String) : String :=
  match elems with
  | [] => ""
  | [e] => e
  | e :: rest => rest.foldl (fun b s => b ++ sep ++ s) e

/-- Go `strings.Cut` on character lists: the text before the first `sep`, the text after
it, and whether `sep` was found. -/
def Cut (s : List Char) (sep : Char) : List Char × List Char × Bool :=
  match s with
  | [] => ([], [], false)
  | c :: cs =>
    if c = sep then ([], cs, true)
    else
      let r := Cut cs sep
      (c :: r.1, r.2.1, r.2.2)

end strings

namespace strconv

/-- Go `strconv.Itoa`: the base-10 rendering of an integer, with a leading `-` when it is
negative. -/
def Itoa (i : Int) : String :=
  match i with
  | Int.ofNat n => Nat.repr n
  | Int.negSucc n => "-" ++ Nat.repr (n + 1)

/-- Go `strconv.FormatBool`. -/
def FormatBool (b : Bool) : String :=
  if b then "true" else "false"

end strconv

namespace fmt

/-- The verbs of a format string, for string operands only: `%s` is replaced by the next
operand (`%!s(MISSING)` when none is left), `%%` by a percent sign, every other character
is copied. Other verbs are not interpreted; the formats of this package have none. -/
def sprintfAux : List Char → List String → List Char
  | [], _ => []
  | [c], _ => [c]
  | c :: d :: rest, args =>
    if c = '%' then
      if d = 's' then
        match args with
        | a :: as => a.data ++ sprintfAux rest as
        | [] => "%!s(MISSING)".data ++ sprintfAux rest []
      else if d = '%' then '%' :: sprintfAux rest args
      else c :: sprintfAux (d :: rest) args
    else c :: sprintfAux (d :: rest) args

/-- Go `fmt.Sprintf` restricted to `%s` verbs with string operands, the only use this
package makes of it (every call site passes exactly as many operands as verbs). -/
def Sprintf (format : String) (args : List String) : String :=
  String.mk (sprintfAux format.data args)

end fmt

namespace reflect

/-- The key scan of `StructTag.Lookup`: the leading characters that are above the blank
and are neither a colon, a quote nor DEL; returns them and the remainder. -/
def scanKey : List Char → List Char × List Char
  | [] => ([], [])
  | c :: cs =>
    if 32 < c.toNat ∧ c ≠ ':' ∧ c ≠ '"' ∧ c.toNat ≠ 127 then
      let r := scanKey cs
      (c :: r.1, r.2)
    else ([], c :: cs)

/-- The value scan of `StructTag.Lookup`, started right after the opening quote: the
characters up to the closing quote (a backslash keeps the next character with it) and
the remainder after that quote; `none` when the quote is never closed. -/
def scanQuoted : List Char → Option (List Char × List Char)
  | [] => none
  | [c] => if c = '"' then some ([], []) else none
  | c :: d :: rest =>
    if c = '"' then some ([], d :: rest)
    else if c = '\\' then
      (scanQuoted rest).map fun r => (c :: d :: r.1, r.2)
    else
      (scanQuoted (d :: rest)).map fun r => (c :: r.1, r.2)

/-- The loop of `StructTag.Lookup`: skip blanks, read `key:"value"`, return the value
when the key is the one asked for, otherwise go on with the rest; any syntax error ends
the search with nothing found. The value is what `strconv.Unquote` gives for a quoted
text free of backslashes; a value holding a backslash escape is not unquoted here and
counts as not found, as does one holding a line break, which `Unquote` refuses. No tag of
this package has either. -/
def lookupAux : Nat → List Char → List Char → Option (List Char)
  | 0, _, _ => none
  | fuel + 1, tag, key =>
    let tag := tag.dropWhile (fun c => c = ' ')
    if tag = [] then none
    else
      let k := scanKey tag
      match k.1, k.2 with
      | [], _ => none
      | _ :: _, c :: q :: rest =>
        if c = ':' ∧ q = '"' then
          match scanQuoted rest with
          | none => none
          | some (value, tail) =>
            if k.1 = key then
              if '\\' ∈ value ∨ '\n' ∈ value then none else some value
            else lookupAux fuel tail key
        else none
      | _ :: _, _ => none

/-- Go `reflect.StructTag.Lookup`. -/
def Lookup (tag : String) (key : String) : Option String :=
  (lookupAux (tag.length + 1) tag.data key.data).map String.mk

/-- Go `reflect.StructTag.Get`: the value of `key` in the tag, the empty string when the
tag has no such key or is not well formed up to it. -/
def Get (tag : String) (key : String) : String :=
  (Lookup tag key).getD ""

end reflect

/-! ## JSON values and the field rules of `encoding/json` -/

/-- A JSON value. Numbers are integers: every numeric field of this package is a Go
`int`. -/
inductive JSON where
  | null
  | bool (b : Bool)
  | number (n : Int)
  | string (s : String)
  | array (xs : List JSON)
  | object (members : List (String × JSON))

namespace JSON

/-- The keys of an object, in order; no keys for any other value. -/
def keys : JSON → List String
  | object members => members.map Prod.fst
  | _ => []

/-- The value stored under a key of an object (the first one, if the key repeats). -/
def lookup (k : String) : JSON → Option JSON
  | object members => (members.find? fun m => m.1 = k).map Prod.snd
  | _ => none

/-- Go `isEmptyValue` of `encoding/json`, read off the marshalled value: `false`, `0`,
the empty string, a nil pointer or nil slice (both marshalled as `null`) and an empty
slice are empty; a struct never is. -/
def isEmptyValue : JSON → Bool
  | null => true
  | bool b => !b
  | number n => n == 0
  | string s => s == ""
  | array xs => xs.isEmpty
  | object _ => false

end JSON

namespace json

/-- A struct field as `encoding/json` sees it: the Go field name, the raw struct tag
as written in the source, and the field's marshalled value. -/
structure Field where
  Name : String
  Tag : String
  Value : JSON

/-- Go `isValidTag`: a usable tag name is non-empty and made of letters, digits and the
punctuation listed in `encoding/json` (neither quote, backslash nor comma). Letters and
digits are the ASCII ones here; the tags of this package hold no others. -/
def isValidTag (s : List Char) : Bool :=
  !s.isEmpty && s.all fun c =>
    "!#$%&()*+-./:;<=>?@[]^_\x7b|\x7d~ ".data.contains c || c.isAlphanum

/-- Whether the comma-separated option list holds the given option (`tagOptions.Contains`). -/
def optionsContain : Nat → List Char → List Char → Bool
  | 0, _, _ => false
  | fuel + 1, opts, name =>
    if opts = [] then false
    else
      let r := strings.Cut opts ','
      if r.1 = name then true else optionsContain fuel r.2.1 name

/-- The wire name and `omitempty` flag that `encoding/json` gives a field: taken from the
`json` key of its struct tag; the Go field name is used when the tag has no `json` key,
cannot be parsed, or names nothing valid; `none` when the tag is `-` and the field is
left out altogether. -/
def fieldKey (f : Field) : Option (String × Bool) :=
  let tag := reflect.Get f.Tag "json"
  if tag = "-" then none
  else
    let r := strings.Cut tag.data ','
    let name := if isValidTag r.1 then String.mk r.1 else ""
    let omitEmpty := optionsContain (r.2.1.length + 1) r.2.1 "omitempty".data
    some (if name = "" then f.Name else name, omitEmpty)

/-- The members `json.Marshal` writes for a struct given by its fields: one per field, in
declaration order, under the field's wire name, leaving out each `omitempty` field whose
value is empty. (No two fields of a struct of this package share a wire name, so Go's
rule for clashing names never applies.) -/
def structMembers (fields : List Field) : List (String × JSON) :=
  fields.filterMap fun f =>
    match fieldKey f with
    | none => none
    | some (k, omitEmpty) =>
      if omitEmpty && f.Value.isEmptyValue then none else some (k, f.Value)

/-- Go `json.Marshal` of a struct given by its fields: the object of its members. -/
def marshalStruct (fields : List Field) : JSON :=
  JSON.object (structMembers fields)

end json

/-! ## Data model -/

/-- Options defines a merge field's options. -/
structure Options where
  DefaultCountry : Int
  PhoneFormat : String
  DateFormat : String
  Choices : List String
  Size : Int
  deriving DecidableEq, Repr

/-- MergeField defines a single merge field within a list. (`Type_` is the Go field
`Type`.) -/
structure MergeField where
  MergeID : Int
  Tag : String
  Name : String
  Type_ : String
  Required : Bool
  DefaultValue : String
  Public : Bool
  DisplayOrder : Int
  Options : Option Options
  HelpText : String
  ListID : String
  deriving DecidableEq, Repr

/-- ListMergeFields defines the list of merge fields. -/
structure ListMergeFields where
  MergeFields : List MergeField
  ListID : String
  TotalItems : Int
  deriving DecidableEq, Repr

/-- NewParams defines the parameters of `New`. -/
structure NewParams where
  Tag : String
  Name : String
  Type_ : String
  Required : Bool
  DefaultValue : String
  Public : Bool
  DisplayOrder : Int
  Options : Option Options
  HelpText : String
  deriving DecidableEq, Repr

/-- UpdateParams defines the parameters of `Update`. -/
structure UpdateParams where
  Tag : String
  Name : String
  Required : Bool
  DefaultValue : String
  Public : Bool
  DisplayOrder : Int
  Options : Option Options
  HelpText : String
  deriving DecidableEq, Repr

/-- The Go zero value `Options{}`. -/
def Options.zero : Options := ⟨0, "", "", [], 0⟩

/-- The Go zero value `MergeField{}`. -/
def MergeField.zero : MergeField := ⟨0, "", "", "", false, "", false, 0, none, "", ""⟩

/-- The Go zero value `ListMergeFields{}`. -/
def ListMergeFields.zero : ListMergeFields := ⟨[], "", 0⟩

/-- The fields of `Options` with their struct tags. -/
def Options.fields (o : Options) : List json.Field :=
  [ ⟨"DefaultCountry", "json:\"default_country,omitempty\"", .number o.DefaultCountry⟩,
    ⟨"PhoneFormat", "json:\"phone_format,omitempty\"", .string o.PhoneFormat⟩,
    ⟨"DateFormat", "json:\"date_format,omitempty\"", .string o.DateFormat⟩,
    ⟨"Choices", "json:\"choices,omitempty\"", .array (o.Choices.map JSON.string)⟩,
    ⟨"Size", "json:\"size,omitempty\"", .number o.Size⟩ ]

/-- The marshalled value of a `*Options` field: `null` for a nil pointer, the object of
the pointed-to struct otherwise. -/
def Options.marshalPtr : Option Options → JSON
  | none => .null
  | some o => json.marshalStruct o.fields

/-- The fields of `NewParams` with their struct tags, as written in the source. -/
def NewParams.fields (p : NewParams) : List json.Field :=
  [ ⟨"Tag", "json:\"tag,omitempty\"", .string p.Tag⟩,
    ⟨"Name", "json:\"name\"", .string p.Name⟩,
    ⟨"Type", "json:\"type\"", .string p.Type_⟩,
    ⟨"Required", "json:\"required,omitempty\"", .bool p.Required⟩,
    ⟨"DefaultValue", "json\"default_value,omitempty\"", .string p.DefaultValue⟩,
    ⟨"Public", "json:\"public,omitempty\"", .bool p.Public⟩,
    ⟨"DisplayOrder", "json:\"display_order,omitempty\"", .number p.DisplayOrder⟩,
    ⟨"Options", "json:\"options,omitempty\"", Options.marshalPtr p.Options⟩,
    ⟨"HelpText", "json:\"help_text,omitempty\"", .string p.HelpText⟩ ]

/-- The fields of `UpdateParams` with their struct tags, as written in the source. -/
def UpdateParams.fields (p : UpdateParams) : List json.Field :=
  [ ⟨"Tag", "json:\"tag,omitempty\"", .string p.Tag⟩,
    ⟨"Name", "json:\"name\"", .string p.Name⟩,
    ⟨"Required", "json:\"required,omitempty\"", .bool p.Required⟩,
    ⟨"DefaultValue", "json\"default_value,omitempty\"", .string p.DefaultValue⟩,
    ⟨"Public", "json:\"public,omitempty\"", .bool p.Public⟩,
    ⟨"DisplayOrder", "json:\"display_order,omitempty\"", .number p.DisplayOrder⟩,
    ⟨"Options", "json:\"options,omitempty\"", Options.marshalPtr p.Options⟩,
    ⟨"HelpText", "json:\"help_text,omitempty\"", .string p.HelpText⟩ ]

/-- Go `json.Marshal` of a `NewParams` value. -/
def NewParams.Marshal (p : NewParams) : JSON := json.marshalStruct p.fields

/-- Go `json.Marshal` of an `UpdateParams` value. -/
def UpdateParams.Marshal (p : UpdateParams) : JSON := json.marshalStruct p.fields

/-! ## Decoding a merge field -/

namespace json

/-- The case folding under which `encoding/json` matches an object key with a field name
when no field has exactly that name: ASCII letters lose their case, and the long s
(U+017F) and the Kelvin sign (U+212A) fold with `s` and `k`. Other characters are kept:
no other character folds to one of a field name of this package. -/
def foldRune (c : Char) : Char :=
  if c = '\u017f' then 'S'
  else if c = '\u212a' then 'K'
  else c.toUpper

/-- The folded form of a name. -/
def foldName (s : String) : List Char := s.data.map foldRune

/-- The field an object key is decoded into, among fields given as (Go name, wire name):
the field with exactly that wire name, otherwise the first one equal to it under case
folding, otherwise none (the member is skipped). -/
def findField (fields : List (String × String)) (key : String) : Option String :=
  match fields.find? fun f => f.2 = key with
  | some f => some f.1
  | none => (fields.find? fun f => foldName f.2 = foldName key).map Prod.fst

/-- The (Go name, wire name) pairs of a struct given by its field names and tags. -/
def wireNames (tags : List (String × String)) : List (String × String) :=
  tags.filterMap fun t => (fieldKey ⟨t.1, t.2, .null⟩).map fun k => (t.1, k.1)

/-- Decoding into a Go `string`: a JSON string is stored; `null` and values of another
kind leave the field as it is (for the latter Go records a type error and goes on). -/
def setString (old : String) : JSON → String
  | .string s => s
  | _ => old

/-- Decoding into a Go `int`: a JSON number within the 64-bit range is stored; anything
else leaves the field as it is. -/
def setInt (old : Int) : JSON → Int
  | .number n => if -(2 ^ 63) ≤ n ∧ n < 2 ^ 63 then n else old
  | _ => old

/-- Decoding into a Go `bool`. -/
def setBool (old : Bool) : JSON → Bool
  | .bool b => b
  | _ => old

/-- Decoding into a Go `[]string`: an array gives a slice of its length, holding the
strings of the array (an element that is not a string is left empty); `null` gives the
nil slice; any other value leaves the slice as it is. -/
def setStrings (old : List String) : JSON → List String
  | .array xs => xs.map (setString "")
  | .null => []
  | _ => old

end json

/-- The fields of `Options` by Go name, with their struct tags. -/
def Options.tags : List (String × String) :=
  [ ("DefaultCountry", "json:\"default_country,omitempty\""),
    ("PhoneFormat", "json:\"phone_format,omitempty\""),
    ("DateFormat", "json:\"date_format,omitempty\""),
    ("Choices", "json:\"choices,omitempty\""),
    ("Size", "json:\"size,omitempty\"") ]

/-- Storing a decoded value into the `Options` field of the given Go name. -/
def Options.set (o : Options) (name : String) (v : JSON) : Options :=
  if name = "DefaultCountry" then { o with DefaultCountry := json.setInt o.DefaultCountry v }
  else if name = "PhoneFormat" then { o with PhoneFormat := json.setString o.PhoneFormat v }
  else if name = "DateFormat" then { o with DateFormat := json.setString o.DateFormat v }
  else if name = "Choices" then { o with Choices := json.setStrings o.Choices v }
  else if name = "Size" then { o with Size := json.setInt o.Size v }
  else o

/-- Go `json.Unmarshal` of an object's members into an `Options` struct: each member, in
order, is stored into the field its key resolves to; members resolving to no field are
skipped. -/
def Options.decodeMembers (o : Options) (members : List (String × JSON)) : Options :=
  members.foldl (fun o m =>
    match json.findField (json.wireNames Options.tags) m.1 with
    | some name => o.set name m.2
    | none => o) o

/-- Decoding into a `*Options`: `null` sets the pointer to nil; for any other value a nil
pointer is first made to point to a fresh struct; an object is then decoded into the
pointed-to struct, and a value of another kind leaves that struct as it is (Go records a
type error and goes on). -/
def Options.setPtr (old : Option Options) : JSON → Option Options
  | .null => none
  | .object members => some ((old.getD Options.zero).decodeMembers members)
  | _ => some (old.getD Options.zero)

/-- The fields of `MergeField` by Go name, with their struct tags as written in the
source; `HelpText` has none. -/
def MergeField.tags : List (String × String) :=
  [ ("MergeID", "json:\"merge_id\""),
    ("Tag", "json:\"tag\""),
    ("Name", "json:\"name\""),
    ("Type", "json:\"type\""),
    ("Required", "json:\"required\""),
    ("DefaultValue", "json:\"default_value\""),
    ("Public", "json:\"public\""),
    ("DisplayOrder", "json:\"display_order\""),
    ("Options", "json:\"options\""),
    ("HelpText", ""),
    ("ListID", "json:\"list_id\"") ]

/-- Storing a decoded value into the `MergeField` field of the given Go name. -/
def MergeField.set (m : MergeField) (name : String) (v : JSON) : MergeField :=
  if name = "MergeID" then { m with MergeID := json.setInt m.MergeID v }
  else if name = "Tag" then { m with Tag := json.setString m.Tag v }
  else if name = "Name" then { m with Name := json.setString m.Name v }
  else if name = "Type" then { m with Type_ := json.setString m.Type_ v }
  else if name = "Required" then { m with Required := json.setBool m.Required v }
  else if name = "DefaultValue" then
    { m with DefaultValue := json.setString m.DefaultValue v }
  else if name = "Public" then { m with Public := json.setBool m.Public v }
  else if name = "DisplayOrder" then { m with DisplayOrder := json.setInt m.DisplayOrder v }
  else if name = "Options" then { m with Options := Options.setPtr m.Options v }
  else if name = "HelpText" then { m with HelpText := json.setString m.HelpText v }
  else if name = "ListID" then { m with ListID := json.setString m.ListID v }
  else m

/-- Go `json.Unmarshal` of a response document into a `*MergeField`: each member of an
object, in order, is stored into the field its key resolves to; members resolving to no
field are skipped; a document that is not an object leaves the record as it is. -/
def MergeField.Unmarshal (m : MergeField) : JSON → MergeField
  | .object members =>
    members.foldl (fun m kv =>
      match json.findField (json.wireNames MergeField.tags) kv.1 with
      | some name => m.set name kv.2
      | none => m) m
  | _ => m

/-! ## Query strings -/

/-- A query string, as the sequence of its `key=value` parameters. -/
abbrev QueryString := List (String × String)

namespace query

/-- The value of a struct field handed to `query.Encode`; the encoders of this package
use strings, ints and bools only. -/
inductive Value where
  | string (s : String)
  | int (i : Int)
  | bool (b : Bool)

/-- The text a value takes in the query string. -/
def Value.render : Value → String
  | .string s => s
  | .int i => strconv.Itoa i
  | .bool b => strconv.FormatBool b

/-- The zero value test behind `omitempty`: the empty string, `0` and `false`. -/
def Value.isEmpty : Value → Bool
  | .string s => s == ""
  | .int i => i == 0
  | .bool b => !b

/-- A struct field as the query encoder sees it: Go field name, raw struct tag, value. -/
structure Field where
  Name : String
  Tag : String
  Value : Value

/-- The parameter name and `omitempty` flag of a field, from the `url` key of its struct
tag: the name is the text before the first comma (the Go field name when that is empty),
the options follow it; `none` when the tag is `-`. -/
def fieldKey (f : Field) : Option (String × Bool) :=
  let tag := reflect.Get f.Tag "url"
  if tag = "-" then none
  else
    let r := strings.Cut tag.data ','
    let omitEmpty := json.optionsContain (r.2.1.length + 1) r.2.1 "omitempty".data
    some (if r.1 = [] then f.Name else String.mk r.1, omitEmpty)

/-- Modelled from the spec: `query.Encode`, of the repository's `query` package, whose
source is not part of this package. It turns a struct with `url` tags into a query
string: each field gives one `key=value` parameter under the name of its `url` tag,
and a field tagged `omitempty` is suppressed when its value is unset (zero). The
parameters are listed here in field order; their order and escaping in the final text
belong to the absent package. -/
def Encode (fields : List Field) : QueryString :=
  fields.filterMap fun f =>
    match fieldKey f with
    | none => none
    | some (k, omitEmpty) =>
      if omitEmpty && f.Value.isEmpty then none else some (k, f.Value.render)

end query

/-- FieldType defines the type of field asked for. -/
abbrev FieldType := String

/-- String implements the string interface for FieldType. -/
def FieldType.String (ft : FieldType) : String := ft

def TypeText : FieldType := "text"
def TypeAddress : FieldType := "address"
def TypeBirthday : FieldType := "birthday"
def TypeDate : FieldType := "date"
def TypeDropdown : FieldType := "dropdown"
def TypeImage : FieldType := "imageurl"
def TypeNumber : FieldType := "number"
def TypePhoneNumber : FieldType := "phone"
def TypeRadio : FieldType := "radio"

/-- GetParams defines the parameters of `Get`. -/
structure GetParams where
  Fields : List String
  ExcludeFields : List String
  Count : Int
  Offset : Int
  FieldType : FieldType
  Required : Bool
  deriving DecidableEq, Repr

/-- GetMergeFieldParams defines the parameters documented for `GetMergeField`. -/
structure GetMergeFieldParams where
  Fields : List String
  ExcludeFields : List String
  deriving DecidableEq, Repr

/-- The anonymous struct that `GetParams.EncodeQueryString` builds and hands to
`query.Encode`, with its struct tags as written in the source. -/
def GetParams.encodedStruct (gp : GetParams) : List query.Field :=
  [ ⟨"Fields", "url:\"fields,omitempty\"", .string (strings.Join gp.Fields ",")⟩,
    ⟨"ExcludeFields", "url:\"exclude_fields,omitempty\"",
      .string (strings.Join gp.ExcludeFields ",")⟩,
    ⟨"Count", "url:\"count,omitempty\"", .int gp.Count⟩,
    ⟨"Offset", "url:\"offset,omitempty\"", .int gp.Offset⟩,
    ⟨"FieldType", "url:\"field_type,omitempty\"", .string gp.FieldType⟩,
    ⟨"Required", "url:\"required,omitempty\"", .bool gp.Required⟩ ]

/-- EncodeQueryString handles custom query string encoding for the GetParams object. -/
def GetParams.EncodeQueryString (gp : GetParams) : QueryString :=
  query.Encode gp.encodedStruct

/-- The anonymous struct that `GetMergeFieldParams.EncodeQueryString` builds and hands to
`query.Encode`, with its struct tags as written in the source. -/
def GetMergeFieldParams.encodedStruct (gp : GetMergeFieldParams) : List query.Field :=
  [ ⟨"Fields", "url:\"fields,omitempty\"", .string (strings.Join gp.Fields ",")⟩,
    ⟨"ExcludeFields", "url:\"exclude_fields,omitempty\"",
      .string (strings.Join gp.ExcludeFields ",")⟩ ]

/-- EncodeQueryString handles custom query string encoding for the GetMergeFieldParams
object. -/
def GetMergeFieldParams.EncodeQueryString (gp : GetMergeFieldParams) : QueryString :=
  query.Encode gp.encodedStruct

/-! ## The gateway -/

/-- Modelled from the spec: `mailchimp.APIError`, declared in the parent package and not
part of this one; the structured error of the gateway, exposing an HTTP status code
and a message. -/
structure APIError where
  Status : Int
  Message : String
  deriving DecidableEq, Repr

/-- A non-nil Go `error` value as the gateway returns it: an `*APIError`, or any other
error (known by its text). -/
inductive GoError where
  | api (e : APIError)
  | other (msg : String)
  deriving DecidableEq, Repr

/-- The `queryParams interface{}` argument of a gateway call, as this package fills it:
the untyped `nil`, or a non-nil pointer to one of the parameter structs. -/
inductive QueryParams where
  | nil
  | getParams (p : GetParams)
  | getMergeFieldParams (p : GetMergeFieldParams)
  deriving DecidableEq, Repr

/-- The query string a query-parameter object encodes to, through its own
`EncodeQueryString`; nothing for `nil`. -/
def QueryParams.Encode : QueryParams → Option QueryString
  | .nil => none
  | .getParams p => some p.EncodeQueryString
  | .getMergeFieldParams p => some p.EncodeQueryString

/-- The `body interface{}` argument of a gateway call: the untyped `nil`, or a
`*NewParams` or `*UpdateParams` pointer, which may itself be nil. -/
inductive Body where
  | nil
  | newParams (p : Option NewParams)
  | updateParams (p : Option UpdateParams)
  deriving DecidableEq, Repr

/-- The JSON document of a body: none for the untyped `nil`, `null` for a nil pointer,
the marshalled struct otherwise. -/
def Body.Marshal : Body → Option JSON
  | .nil => none
  | .newParams none => some .null
  | .newParams (some p) => some p.Marshal
  | .updateParams none => some .null
  | .updateParams (some p) => some p.Marshal

/-- The kind of output target `v` handed to a gateway call: `nil`, a `*MergeField` or a
`*ListMergeFields`. -/
inductive OutKind where
  | nil
  | mergeField
  | listMergeFields
  deriving DecidableEq, Repr

/-- The record an output target points to. -/
abbrev OutKind.Pointee : OutKind → Type
  | .nil => Unit
  | .mergeField => MergeField
  | .listMergeFields => ListMergeFields

/-- The gateway collaborator `mailchimp.Call(method, path, queryParams, body, v) error`,
taken as a parameter: from its own state `σ` and the arguments it gives its next state,
the contents it leaves in the output target, and the error it returns (`none` for a nil
error). -/
structure Gateway (σ : Type) where
  Call : σ → String → String → QueryParams → Body → (k : OutKind) → k.Pointee →
    σ × k.Pointee × Option GoError

/-- One gateway call as issued by an operation, with the error it came back with. -/
structure CallRecord where
  method : String
  path : String
  queryParams : QueryParams
  body : Body
  out : OutKind
  err : Option GoError
  deriving DecidableEq, Repr

/-- The outcome of running an operation: the gateway's final state, the gateway calls
issued, in order, and the values returned to the caller. -/
structure Run (σ α : Type) where
  state : σ
  calls : List CallRecord
  ret : α

/-- A gateway call that is also appended to the record of calls. -/
def Gateway.call {σ : Type} (gw : Gateway σ) (st : σ × List CallRecord) (method path : String)
    (queryParams : QueryParams) (body : Body) (k : OutKind) (v : k.Pointee) :
    (σ × List CallRecord) × k.Pointee × Option GoError :=
  let r := gw.Call st.1 method path queryParams body k v
  ((r.1, st.2 ++ [⟨method, path, queryParams, body, k, r.2.2⟩]), r.2.1, r.2.2)

/-! ## Operations -/

/-- New adds a new list merge field. With nil params the first call is not followed by a
return on success, so control reaches the second call. -/
def New {σ : Type} (gw : Gateway σ) (s : σ) (listID : String) (params : Option NewParams) :
    Run σ (Option MergeField × Option GoError) :=
  let res := MergeField.zero
  let path := fmt.Sprintf "lists/%s/merge-fields" [listID]
  let last := fun (st : σ × List CallRecord) (res : MergeField) =>
    match gw.call st "POST" path .nil (.newParams params) .mergeField res with
    | (st, _, some err) => (⟨st.1, st.2, (none, some err)⟩ : Run σ _)
    | (st, res, none) => ⟨st.1, st.2, (some res, none)⟩
  match params with
  | none =>
    match gw.call (s, []) "POST" path .nil .nil .mergeField res with
    | (st, _, some err) => ⟨st.1, st.2, (none, some err)⟩
    | (st, res, none) => last st res
  | some _ => last (s, []) res

/-- Get retrieves a list of merge fields. -/
def Get {σ : Type} (gw : Gateway σ) (s : σ) (listID : String) (params : Option GetParams) :
    Run σ (Option ListMergeFields × Option GoError) :=
  let res := ListMergeFields.zero
  let path := fmt.Sprintf "lists/%s/merge-fields" [listID]
  match params with
  | none =>
    match gw.call (s, []) "GET" path .nil .nil .listMergeFields res with
    | (st, _, some err) => ⟨st.1, st.2, (none, some err)⟩
    | (st, res, none) => ⟨st.1, st.2, (some res, none)⟩
  | some p =>
    match gw.call (s, []) "GET" path (.getParams p) .nil .listMergeFields res with
    | (st, _, some err) => ⟨st.1, st.2, (none, some err)⟩
    | (st, res, none) => ⟨st.1, st.2, (some res, none)⟩

/-- GetMergeField retrieves a single merge field. Its params argument is a `*GetParams`. -/
def GetMergeField {σ : Type} (gw : Gateway σ) (s : σ) (listID : String) (mergeID : Int)
    (params : Option GetParams) : Run σ (Option MergeField × Option GoError) :=
  let res := MergeField.zero
  let path := fmt.Sprintf "lists/%s/merge-fields/%s" [listID, strconv.Itoa mergeID]
  match params with
  | none =>
    match gw.call (s, []) "GET" path .nil .nil .mergeField res with
    | (st, _, some err) => ⟨st.1, st.2, (none, some err)⟩
    | (st, res, none) => ⟨st.1, st.2, (some res, none)⟩
  | some p =>
    match gw.call (s, []) "GET" path (.getParams p) .nil .mergeField res with
    | (st, _, some err) => ⟨st.1, st.2, (none, some err)⟩
    | (st, res, none) => ⟨st.1, st.2, (some res, none)⟩

/-- Update updates a merge field in a list. With nil params the first call is not
followed by a return on success, so control reaches the second call. -/
def Update {σ : Type} (gw : Gateway σ) (s : σ) (listID : String) (mergeID : Int)
    (params : Option UpdateParams) : Run σ (Option MergeField × Option GoError) :=
  let res := MergeField.zero
  let path := fmt.Sprintf "lists/%s/merge-fields/%s" [listID, strconv.Itoa mergeID]
  let last := fun (st : σ × List CallRecord) (res : MergeField) =>
    match gw.call st "PATCH" path .nil (.updateParams params) .mergeField res with
    | (st, _, some err) => (⟨st.1, st.2, (none, some err)⟩ : Run σ _)
    | (st, res, none) => ⟨st.1, st.2, (some res, none)⟩
  match params with
  | none =>
    match gw.call (s, []) "PATCH" path .nil .nil .mergeField res with
    | (st, _, some err) => ⟨st.1, st.2, (none, some err)⟩
    | (st, res, none) => last st res
  | some _ => last (s, []) res

/-- Delete deletes a list merge field. -/
def Delete {σ : Type} (gw : Gateway σ) (s : σ) (listID : String) (mergeID : Int) :
    Run σ (Option GoError) :=
  let path := fmt.Sprintf "lists/%s/merge-fields/%s" [listID, strconv.Itoa mergeID]
  match gw.call (s, []) "DELETE" path .nil .nil .nil () with
  | (st, _, err) => ⟨st.1, st.2, err⟩

/-! ## Reading a run, and sample gateways -/

/-- The pair an operation returns after its last call: the error alone when there is one,
the decoded record with a nil error otherwise. -/
def resultOf {α : Type} (r : α × Option GoError) : Option α × Option GoError :=
  match r.2 with
  | some err => (none, some err)
  | none => (some r.1, none)

/-- The query-parameter argument `Get` and `GetMergeField` pass for their params. -/
def queryOf : Option GetParams → QueryParams
  | none => .nil
  | some p => .getParams p

/-- A gateway that accepts every call and leaves the output target as it found it. -/
def acceptingGateway : Gateway Unit :=
  ⟨fun s _ _ _ _ _ v => (s, v, none)⟩

/-- A gateway that answers every call with an API error of status 404. -/
def notFoundGateway : Gateway Unit :=
  ⟨fun s _ _ _ _ _ v => (s, v, some (.api ⟨404, "Resource Not Found"⟩))⟩

/-- A gateway that numbers its calls and answers a creation request by decoding a record
that carries the tag, name and type of the body it received, under the next identifier. -/
def echoGateway : Gateway Int :=
  ⟨fun s _ _ _ body k v =>
    match k, v with
    | .mergeField, m =>
      match body with
      | .newParams (some p) =>
        (s + 1, { m with MergeID := s + 1, Tag := p.Tag, Name := p.Name, Type_ := p.Type_ }, none)
      | _ => (s + 1, m, none)
    | .listMergeFields, l => (s + 1, l, none)
    | .nil, u => (s + 1, u, none)⟩

/-- The parameter a field tagged `omitempty` contributes to a query string: none when its
value is unset, its rendering under the given key otherwise. -/
def param (k : String) (v : query.Value) : QueryString :=
  if v.isEmpty then [] else [(k, v.render)]

/-- The member a field contributes to a marshalled struct: none for an `omitempty` field
with an empty value, the value under the given key otherwise. -/
def member (k : String) (omitEmpty : Bool) (v : JSON) : List (String × JSON) :=
  if omitEmpty && v.isEmptyValue then [] else [(k, v)]

/-- The number of commas in a string. -/
def commas (s : String) : Nat := s.data.count ','

/-- The keys of the JSON documents of the bodies handed to the gateway, call by call. -/
def bodyKeys (calls : List CallRecord) : List (Option (List String)) :=
  calls.map fun c => c.body.Marshal.map JSON.keys

/-- The query strings of the query parameters handed to the gateway, call by call. -/
def queryStrings (calls : List CallRecord) : List (Option QueryString) :=
  calls.map fun c => c.queryParams.Encode

/-! ## Paths -/

theorem Sprintf_list_path (listID : String) :
    fmt.Sprintf "lists/%s/merge-fields" [listID] = "lists/" ++ listID ++ "/merge-fields" := by
  apply String.ext
  simp [fmt.Sprintf, fmt.sprintfAux]

theorem Sprintf_field_path (listID d : String) :
    fmt.Sprintf "lists/%s/merge-fields/%s" [listID, d]
      = "lists/" ++ listID ++ "/merge-fields/" ++ d := by
  apply String.ext
  simp [fmt.Sprintf, fmt.sprintfAux]

theorem Itoa_decimal (i : Int) :
    strconv.Itoa i = (if i < 0 then "-" else "") ++ Nat.repr i.natAbs := by
  cases i with
  | ofNat n =>
    have h : ¬ ((n : Int) < 0) := by omega
    have e : ("" : String) ++ Nat.repr n = Nat.repr n := by
      apply String.ext
      simp
    simp [strconv.Itoa, h, e]
  | negSucc n =>
    have h : Int.negSucc n < 0 := Int.negSucc_lt_zero n
    simp [strconv.Itoa, h]

/-! ## What each operation does, call by call -/

theorem New_some_run {σ : Type} (gw : Gateway σ) (s : σ) (listID : String) (p : NewParams) :
    (New gw s listID (some p)).calls
      = [⟨"POST", "lists/" ++ listID ++ "/merge-fields", .nil, .newParams (some p), .mergeField,
          (gw.Call s "POST" ("lists/" ++ listID ++ "/merge-fields") .nil (.newParams (some p))
            .mergeField MergeField.zero).2.2⟩]
    ∧ (New gw s listID (some p)).ret
      = resultOf (gw.Call s "POST" ("lists/" ++ listID ++ "/merge-fields") .nil
          (.newParams (some p)) .mergeField MergeField.zero).2 := by
  rw [← Sprintf_list_path]
  rcases h : gw.Call s "POST" (fmt.Sprintf "lists/%s/merge-fields" [listID]) .nil
    (.newParams (some p)) .mergeField MergeField.zero with ⟨s1, m1, e1⟩
  cases e1 <;> simp [New, Gateway.call, h, resultOf]

theorem New_none_run {σ : Type} (gw : Gateway σ) (s : σ) (listID : String) :
    let path := "lists/" ++ listID ++ "/merge-fields"
    let r1 := gw.Call s "POST" path .nil .nil .mergeField MergeField.zero
    let r2 := gw.Call r1.1 "POST" path .nil (.newParams none) .mergeField r1.2.1
    (New gw s listID none).calls
      = ⟨"POST", path, .nil, .nil, .mergeField, r1.2.2⟩ ::
        (match r1.2.2 with
        | some _ => []
        | none => [⟨"POST", path, .nil, .newParams none, .mergeField, r2.2.2⟩])
    ∧ (New gw s listID none).ret
      = (match r1.2.2 with
        | some err => (none, some err)
        | none => resultOf r2.2) := by
  intro path r1 r2
  have hp : fmt.Sprintf "lists/%s/merge-fields" [listID] = path := Sprintf_list_path listID
  rcases h1 : gw.Call s "POST" path .nil .nil .mergeField MergeField.zero with ⟨s1, m1, e1⟩
  cases e1 with
  | some e => simp [New, Gateway.call, hp, h1, r1]
  | none =>
    rcases h2 : gw.Call s1 "POST" path .nil (.newParams none) .mergeField m1 with ⟨s2, m2, e2⟩
    cases e2 <;> simp [New, Gateway.call, hp, h1, h2, r1, r2, resultOf]

theorem Update_some_run {σ : Type} (gw : Gateway σ) (s : σ) (listID : String) (mergeID : Int)
    (p : UpdateParams) :
    let path := "lists/" ++ listID ++ "/merge-fields/" ++ strconv.Itoa mergeID
    let r := gw.Call s "PATCH" path .nil (.updateParams (some p)) .mergeField MergeField.zero
    (Update gw s listID mergeID (some p)).calls
      = [⟨"PATCH", path, .nil, .updateParams (some p), .mergeField, r.2.2⟩]
    ∧ (Update gw s listID mergeID (some p)).ret = resultOf r.2 := by
  intro path r
  have hp : fmt.Sprintf "lists/%s/merge-fields/%s" [listID, strconv.Itoa mergeID] = path :=
    Sprintf_field_path listID _
  rcases h : gw.Call s "PATCH" path .nil (.updateParams (some p)) .mergeField MergeField.zero
    with ⟨s1, m1, e1⟩
  cases e1 <;> simp [Update, Gateway.call, hp, h, r, resultOf]

theorem Update_none_run {σ : Type} (gw : Gateway σ) (s : σ) (listID : String) (mergeID : Int) :
    let path := "lists/" ++ listID ++ "/merge-fields/" ++ strconv.Itoa mergeID
    let r1 := gw.Call s "PATCH" path .nil .nil .mergeField MergeField.zero
    let r2 := gw.Call r1.1 "PATCH" path .nil (.updateParams none) .mergeField r1.2.1
    (Update gw s listID mergeID none).calls
      = ⟨"PATCH", path, .nil, .nil, .mergeField, r1.2.2⟩ ::
        (match r1.2.2 with
        | some _ => []
        | none => [⟨"PATCH", path, .nil, .updateParams none, .mergeField, r2.2.2⟩])
    ∧ (Update gw s listID mergeID none).ret
      = (match r1.2.2 with
        | some err => (none, some err)
        | none => resultOf r2.2) := by
  intro path r1 r2
  have hp : fmt.Sprintf "lists/%s/merge-fields/%s" [listID, strconv.Itoa mergeID] = path :=
    Sprintf_field_path listID _
  rcases h1 : gw.Call s "PATCH" path .nil .nil .mergeField MergeField.zero with ⟨s1, m1, e1⟩
  cases e1 with
  | some e => simp [Update, Gateway.call, hp, h1, r1]
  | none =>
    rcases h2 : gw.Call s1 "PATCH" path .nil (.updateParams none) .mergeField m1
      with ⟨s2, m2, e2⟩
    cases e2 <;> simp [Update, Gateway.call, hp, h1, h2, r1, r2, resultOf]

theorem Get_run {σ : Type} (gw : Gateway σ) (s : σ) (listID : String)
    (params : Option GetParams) :
    let path := "lists/" ++ listID ++ "/merge-fields"
    let r := gw.Call s "GET" path (queryOf params) .nil .listMergeFields ListMergeFields.zero
    (Get gw s listID params).calls
      = [⟨"GET", path, queryOf params, .nil, .listMergeFields, r.2.2⟩]
    ∧ (Get gw s listID params).ret = resultOf r.2 := by
  intro path r
  have hp : fmt.Sprintf "lists/%s/merge-fields" [listID] = path := Sprintf_list_path listID
  cases params with
  | none =>
    rcases h : gw.Call s "GET" path .nil .nil .listMergeFields ListMergeFields.zero
      with ⟨s1, m1, e1⟩
    cases e1 <;> simp [Get, Gateway.call, hp, h, r, queryOf, resultOf]
  | some p =>
    rcases h : gw.Call s "GET" path (.getParams p) .nil .listMergeFields ListMergeFields.zero
      with ⟨s1, m1, e1⟩
    cases e1 <;> simp [Get, Gateway.call, hp, h, r, queryOf, resultOf]

theorem GetMergeField_run {σ : Type} (gw : Gateway σ) (s : σ) (listID : String) (mergeID : Int)
    (params : Option GetParams) :
    let path := "lists/" ++ listID ++ "/merge-fields/" ++ strconv.Itoa mergeID
    let r := gw.Call s "GET" path (queryOf params) .nil .mergeField MergeField.zero
    (GetMergeField gw s listID mergeID params).calls
      = [⟨"GET", path, queryOf params, .nil, .mergeField, r.2.2⟩]
    ∧ (GetMergeField gw s listID mergeID params).ret = resultOf r.2 := by
  intro path r
  have hp : fmt.Sprintf "lists/%s/merge-fields/%s" [listID, strconv.Itoa mergeID] = path :=
    Sprintf_field_path listID _
  cases params with
  | none =>
    rcases h : gw.Call s "GET" path .nil .nil .mergeField MergeField.zero with ⟨s1, m1, e1⟩
    cases e1 <;> simp [GetMergeField, Gateway.call, hp, h, r, queryOf, resultOf]
  | some p =>
    rcases h : gw.Call s "GET" path (.getParams p) .nil .mergeField MergeField.zero
      with ⟨s1, m1, e1⟩
    cases e1 <;> simp [GetMergeField, Gateway.call, hp, h, r, queryOf, resultOf]

theorem Delete_run {σ : Type} (gw : Gateway σ) (s : σ) (listID : String) (mergeID : Int) :
    let path := "lists/" ++ listID ++ "/merge-fields/" ++ strconv.Itoa mergeID
    let r := gw.Call s "DELETE" path .nil .nil .nil ()
    (Delete gw s listID mergeID).calls = [⟨"DELETE", path, .nil, .nil, .nil, r.2.2⟩]
    ∧ (Delete gw s listID mergeID).ret = r.2.2 := by
  intro path r
  have hp : fmt.Sprintf "lists/%s/merge-fields/%s" [listID, strconv.Itoa mergeID] = path :=
    Sprintf_field_path listID _
  simp [Delete, Gateway.call, hp, r]

/-! ## Endpoints, errors and the number of calls -/

/-- C1: every gateway call an operation issues uses the method and path of the endpoint
table. New issues POST and Get issues GET on `lists/{listID}/merge-fields`;
GetMergeField, Update and Delete issue GET, PATCH and DELETE on
`lists/{listID}/merge-fields/{d}`, where `d` is the base-10 rendering of mergeID, with a
leading `-` when mergeID is negative. Each operation issues at least one call. -/
theorem calls_follow_endpoint_table {σ : Type} (gw : Gateway σ) (s : σ) (listID : String)
    (mergeID : Int) :
    let d := (if mergeID < 0 then "-" else "") ++ Nat.repr mergeID.natAbs
    let listPath := "lists/" ++ listID ++ "/merge-fields"
    let fieldPath := "lists/" ++ listID ++ "/merge-fields/" ++ d
    (∀ params, (New gw s listID params).calls ≠ [] ∧
      ∀ c ∈ (New gw s listID params).calls, c.method = "POST" ∧ c.path = listPath)
    ∧ (∀ params, (Get gw s listID params).calls ≠ [] ∧
      ∀ c ∈ (Get gw s listID params).calls, c.method = "GET" ∧ c.path = listPath)
    ∧ (∀ params, (GetMergeField gw s listID mergeID params).calls ≠ [] ∧
      ∀ c ∈ (GetMergeField gw s listID mergeID params).calls,
        c.method = "GET" ∧ c.path = fieldPath)
    ∧ (∀ params, (Update gw s listID mergeID params).calls ≠ [] ∧
      ∀ c ∈ (Update gw s listID mergeID params).calls,
        c.method = "PATCH" ∧ c.path = fieldPath)
    ∧ ((Delete gw s listID mergeID).calls ≠ [] ∧
      ∀ c ∈ (Delete gw s listID mergeID).calls, c.method = "DELETE" ∧ c.path = fieldPath) := by
  intro d listPath fieldPath
  have hd : fieldPath = "lists/" ++ listID ++ "/merge-fields/" ++ strconv.Itoa mergeID := by
    simp only [fieldPath, d, Itoa_decimal]
  refine ⟨?_, ?_, ?_, ?_, ?_⟩
  · intro params
    cases params with
    | some p => simp [(New_some_run gw s listID p).1, listPath]
    | none =>
      have h := (New_none_run gw s listID).1
      simp only at h
      rw [h]
      split <;> simp [listPath]
  · intro params
    have h := (Get_run gw s listID params).1
    simp only at h
    simp [h, listPath]
  · intro params
    have h := (GetMergeField_run gw s listID mergeID params).1
    simp only at h
    simp [h, hd]
  · intro params
    cases params with
    | some p =>
      have h := (Update_some_run gw s listID mergeID p).1
      simp only at h
      simp [h, hd]
    | none =>
      have h := (Update_none_run gw s listID mergeID).1
      simp only at h
      rw [h]
      split <;> simp [hd]
  · have h := (Delete_run gw s listID mergeID).1
    simp only at h
    simp [h, hd]

/-- C2: when a gateway call made by an operation comes back with an error `e`, the
operation returns exactly `e` and no result: a nil result pointer for New, Get,
GetMergeField and Update, the error alone for Delete. In particular an API error of
status 404 reported to GetMergeField reaches the caller as that same error, status 404. -/
theorem gateway_error_returned_unchanged {σ : Type} (gw : Gateway σ) (s : σ)
    (listID : String) (mergeID : Int) (e : GoError) :
    (∀ params, ∀ c ∈ (New gw s listID params).calls,
      c.err = some e → (New gw s listID params).ret = (none, some e))
    ∧ (∀ params, ∀ c ∈ (Get gw s listID params).calls,
      c.err = some e → (Get gw s listID params).ret = (none, some e))
    ∧ (∀ params, ∀ c ∈ (GetMergeField gw s listID mergeID params).calls,
      c.err = some e → (GetMergeField gw s listID mergeID params).ret = (none, some e))
    ∧ (∀ params, ∀ c ∈ (Update gw s listID mergeID params).calls,
      c.err = some e → (Update gw s listID mergeID params).ret = (none, some e))
    ∧ (∀ c ∈ (Delete gw s listID mergeID).calls,
      c.err = some e → (Delete gw s listID mergeID).ret = some e)
    ∧ (∀ params (a : APIError), a.Status = 404 →
      ∀ c ∈ (GetMergeField gw s listID mergeID params).calls, c.err = some (.api a) →
        ∃ a', (GetMergeField gw s listID mergeID params).ret = (none, some (.api a'))
          ∧ a' = a ∧ a'.Status = 404) := by
  have one : ∀ {α : Type} (cs : List CallRecord) (c0 : CallRecord) (r : α × Option GoError)
      (ret : Option α × Option GoError) (x : GoError),
      cs = [c0] → c0.err = r.2 → ret = resultOf r →
      ∀ c ∈ cs, c.err = some x → ret = (none, some x) := by
    intro α cs c0 r ret x hcs herr hret c hc hx
    subst hcs
    simp only [List.mem_singleton] at hc
    subst hc
    rw [herr] at hx
    simp [hret, resultOf, hx]
  have two : ∀ {α : Type} (cs : List CallRecord) (c1 c2 : CallRecord)
      (e1 : Option GoError) (r2 : α × Option GoError)
      (ret : Option α × Option GoError) (x : GoError),
      cs = c1 :: (match e1 with | some _ => [] | none => [c2]) →
      c1.err = e1 → c2.err = r2.2 →
      ret = (match e1 with | some err => (none, some err) | none => resultOf r2) →
      ∀ c ∈ cs, c.err = some x → ret = (none, some x) := by
    intro α cs c1 c2 e1 r2 ret x hcs h1 h2 hret c hc hx
    cases e1 with
    | some err =>
      simp only at hcs hret
      subst hcs
      simp only [List.mem_singleton] at hc
      subst hc
      rw [h1] at hx
      simp only [Option.some.injEq] at hx
      rw [hret, hx]
    | none =>
      simp only at hcs hret
      subst hcs
      simp only [List.mem_cons, List.mem_singleton, List.not_mem_nil, or_false] at hc
      rcases hc with hc | hc
      · subst hc
        rw [h1] at hx
        exact absurd hx (by simp)
      · subst hc
        rw [h2] at hx
        simp [hret, resultOf, hx]
  refine ⟨?_, ?_, ?_, ?_, ?_, ?_⟩
  · intro params
    cases params with
    | some p =>
      obtain ⟨hc, hr⟩ := New_some_run gw s listID p
      exact one _ _ _ _ e hc rfl hr
    | none =>
      obtain ⟨hc, hr⟩ := New_none_run gw s listID
      exact two _ _ _ _ _ _ e hc rfl rfl hr
  · intro params
    obtain ⟨hc, hr⟩ := Get_run gw s listID params
    exact one _ _ _ _ e hc rfl hr
  · intro params
    obtain ⟨hc, hr⟩ := GetMergeField_run gw s listID mergeID params
    exact one _ _ _ _ e hc rfl hr
  · intro params
    cases params with
    | some p =>
      obtain ⟨hc, hr⟩ := Update_some_run gw s listID mergeID p
      exact one _ _ _ _ e hc rfl hr
    | none =>
      obtain ⟨hc, hr⟩ := Update_none_run gw s listID mergeID
      exact two _ _ _ _ _ _ e hc rfl rfl hr
  · obtain ⟨hc, hr⟩ := Delete_run gw s listID mergeID
    intro c hmem hx
    rw [hc] at hmem
    simp only [List.mem_singleton] at hmem
    subst hmem
    rw [hr]
    exact hx
  · intro params a ha c hmem hx
    obtain ⟨hc, hr⟩ := GetMergeField_run gw s listID mergeID params
    exact ⟨a, one _ _ _ _ (.api a) hc rfl hr c hmem hx, rfl, ha⟩

/-- C2 at a concrete input: against a gateway that reports status 404, GetMergeField
returns that API error and a nil merge field. -/
theorem gateway_error_returned_unchanged_witness :
    (GetMergeField notFoundGateway () "abc" 7 none).ret
      = (none, some (.api ⟨404, "Resource Not Found"⟩)) :=
  (gateway_error_returned_unchanged notFoundGateway () "abc" 7
    (.api ⟨404, "Resource Not Found"⟩)).2.2.1 none
    ⟨"GET", "lists/abc/merge-fields/7", .nil, .nil, .mergeField,
      some (.api ⟨404, "Resource Not Found"⟩)⟩
    (by decide) rfl

/-- With params present New and Update issue one gateway call, and Get, GetMergeField and
Delete always do; with nil params New and Update issue one call when it fails and two
when it succeeds. -/
theorem number_of_calls {σ : Type} (gw : Gateway σ) (s : σ) (listID : String)
    (mergeID : Int) :
    (∀ p, (New gw s listID (some p)).calls.length = 1)
    ∧ (∀ p, (Update gw s listID mergeID (some p)).calls.length = 1)
    ∧ (∀ params, (Get gw s listID params).calls.length = 1)
    ∧ (∀ params, (GetMergeField gw s listID mergeID params).calls.length = 1)
    ∧ (Delete gw s listID mergeID).calls.length = 1
    ∧ (New gw s listID none).calls.length
        = (if (gw.Call s "POST" ("lists/" ++ listID ++ "/merge-fields") .nil .nil .mergeField
            MergeField.zero).2.2 = none then 2 else 1)
    ∧ (Update gw s listID mergeID none).calls.length
        = (if (gw.Call s "PATCH" ("lists/" ++ listID ++ "/merge-fields/" ++ strconv.Itoa mergeID)
            .nil .nil .mergeField MergeField.zero).2.2 = none then 2 else 1) := by
  refine ⟨?_, ?_, ?_, ?_, ?_, ?_, ?_⟩
  · intro p
    rw [(New_some_run gw s listID p).1]
    rfl
  · intro p
    have h := (Update_some_run gw s listID mergeID p).1
    simp only at h
    rw [h]
    rfl
  · intro params
    have h := (Get_run gw s listID params).1
    simp only at h
    rw [h]
    rfl
  · intro params
    have h := (GetMergeField_run gw s listID mergeID params).1
    simp only at h
    rw [h]
    rfl
  · have h := (Delete_run gw s listID mergeID).1
    simp only at h
    rw [h]
    rfl
  · have h := (New_none_run gw s listID).1
    simp only at h
    rw [h]
    split <;> simp_all
  · have h := (Update_none_run gw s listID mergeID).1
    simp only at h
    rw [h]
    split <;> simp_all

/-- C3, at the failing input: called with nil params against a gateway that accepts every
call, New issues two gateway calls, and so does Update; the first carries no body, the
second the nil params pointer. (Get and GetMergeField issue one call on the same input.) -/
theorem New_Update_nil_params_call_gateway_twice :
    (New acceptingGateway () "abc" none).calls
      = [⟨"POST", "lists/abc/merge-fields", .nil, .nil, .mergeField, none⟩,
         ⟨"POST", "lists/abc/merge-fields", .nil, .newParams none, .mergeField, none⟩]
    ∧ (New acceptingGateway () "abc" none).calls.length = 2
    ∧ (Update acceptingGateway () "abc" 7 none).calls
      = [⟨"PATCH", "lists/abc/merge-fields/7", .nil, .nil, .mergeField, none⟩,
         ⟨"PATCH", "lists/abc/merge-fields/7", .nil, .updateParams none, .mergeField, none⟩]
    ∧ (Update acceptingGateway () "abc" 7 none).calls.length = 2
    ∧ (Get acceptingGateway () "abc" none).calls.length = 1
    ∧ (GetMergeField acceptingGateway () "abc" 7 none).calls.length = 1 := by
  decide

/-- C9: for every listID and non-nil params `p`, New hands `p` itself to the gateway as
the body of its one call, and when the gateway succeeds New returns, with a nil error,
exactly the merge field the gateway left in the output target. Hence when that record
carries the tag and name of `p`, so does the merge field New returns. -/
theorem New_sends_params_and_returns_decoded {σ : Type} (gw : Gateway σ) (s : σ)
    (listID : String) (p : NewParams) :
    (New gw s listID (some p)).calls.map CallRecord.body = [Body.newParams (some p)]
    ∧ ∀ (s1 : σ) (m : MergeField),
      gw.Call s "POST" ("lists/" ++ listID ++ "/merge-fields") .nil (.newParams (some p))
        .mergeField MergeField.zero = (s1, m, none) →
      (New gw s listID (some p)).ret = (some m, none)
      ∧ (m.Tag = p.Tag → m.Name = p.Name →
          ∃ r, (New gw s listID (some p)).ret = (some r, none)
            ∧ r.Tag = p.Tag ∧ r.Name = p.Name) := by
  obtain ⟨hc, hr⟩ := New_some_run gw s listID p
  refine ⟨by rw [hc]; rfl, ?_⟩
  intro s1 m hm
  have hret : (New gw s listID (some p)).ret = (some m, none) := by
    rw [hr, hm]
    rfl
  exact ⟨hret, fun ht hn => ⟨m, hret, ht, hn⟩⟩

/-- C9 at a concrete input: the test's creation request against a gateway that echoes
tag and name. -/
theorem New_sends_params_and_returns_decoded_witness :
    (New echoGateway 2 "abc"
        (some ⟨"ADDRESS", "Address", "address", false, "", true, 0,
          some ⟨164, "", "", [], 0⟩, ""⟩)).ret
      = (some ⟨3, "ADDRESS", "Address", "address", false, "", false, 0, none, "", ""⟩, none)
    ∧ ∃ r, (New echoGateway 2 "abc"
        (some ⟨"ADDRESS", "Address", "address", false, "", true, 0,
          some ⟨164, "", "", [], 0⟩, ""⟩)).ret = (some r, none)
      ∧ r.Tag = "ADDRESS" ∧ r.Name = "Address" :=
  have h := (New_sends_params_and_returns_decoded echoGateway 2 "abc"
    ⟨"ADDRESS", "Address", "address", false, "", true, 0, some ⟨164, "", "", [], 0⟩, ""⟩).2
    3 ⟨3, "ADDRESS", "Address", "address", false, "", false, 0, none, "", ""⟩ (by decide)
  ⟨h.1, h.2 rfl rfl⟩

/-! ## Query strings of the parameter structs -/

theorem url_key_fields (v : query.Value) :
    query.fieldKey ⟨"Fields", "url:\"fields,omitempty\"", v⟩ = some ("fields", true) := rfl

theorem url_key_exclude_fields (v : query.Value) :
    query.fieldKey ⟨"ExcludeFields", "url:\"exclude_fields,omitempty\"", v⟩
      = some ("exclude_fields", true) := rfl

theorem url_key_count (v : query.Value) :
    query.fieldKey ⟨"Count", "url:\"count,omitempty\"", v⟩ = some ("count", true) := rfl

theorem url_key_offset (v : query.Value) :
    query.fieldKey ⟨"Offset", "url:\"offset,omitempty\"", v⟩ = some ("offset", true) := rfl

theorem url_key_field_type (v : query.Value) :
    query.fieldKey ⟨"FieldType", "url:\"field_type,omitempty\"", v⟩
      = some ("field_type", true) := rfl

theorem url_key_required (v : query.Value) :
    query.fieldKey ⟨"Required", "url:\"required,omitempty\"", v⟩ = some ("required", true) := rfl

theorem Encode_nil : query.Encode [] = [] := rfl

theorem Encode_cons_omitempty (name tag k : String) (v : query.Value) (fs : List query.Field)
    (h : ∀ v, query.fieldKey ⟨name, tag, v⟩ = some (k, true)) :
    query.Encode (⟨name, tag, v⟩ :: fs) = param k v ++ query.Encode fs := by
  unfold query.Encode param
  rw [List.filterMap_cons, h v]
  cases hv : v.isEmpty <;> simp [hv]

/-- The query string of a `GetParams`: one parameter per set field, the field type under
`field_type`. -/
theorem GetParams_EncodeQueryString_eq (gp : GetParams) :
    gp.EncodeQueryString
      = param "fields" (.string (strings.Join gp.Fields ","))
        ++ (param "exclude_fields" (.string (strings.Join gp.ExcludeFields ","))
        ++ (param "count" (.int gp.Count)
        ++ (param "offset" (.int gp.Offset)
        ++ (param "field_type" (.string gp.FieldType)
        ++ param "required" (.bool gp.Required))))) := by
  unfold GetParams.EncodeQueryString GetParams.encodedStruct
  rw [Encode_cons_omitempty _ _ _ _ _ url_key_fields,
    Encode_cons_omitempty _ _ _ _ _ url_key_exclude_fields,
    Encode_cons_omitempty _ _ _ _ _ url_key_count,
    Encode_cons_omitempty _ _ _ _ _ url_key_offset,
    Encode_cons_omitempty _ _ _ _ _ url_key_field_type,
    Encode_cons_omitempty _ _ _ _ _ url_key_required, Encode_nil, List.append_nil]

/-- The query string of a `GetMergeFieldParams`. -/
theorem GetMergeFieldParams_EncodeQueryString_eq (gp : GetMergeFieldParams) :
    gp.EncodeQueryString
      = param "fields" (.string (strings.Join gp.Fields ","))
        ++ param "exclude_fields" (.string (strings.Join gp.ExcludeFields ",")) := by
  unfold GetMergeFieldParams.EncodeQueryString GetMergeFieldParams.encodedStruct
  rw [Encode_cons_omitempty _ _ _ _ _ url_key_fields,
    Encode_cons_omitempty _ _ _ _ _ url_key_exclude_fields, Encode_nil, List.append_nil]

theorem mem_param {k : String} {v : query.Value} {kv : String × String}
    (h : kv ∈ param k v) : kv.1 = k := by
  unfold param at h
  split at h
  · simp at h
  · simp only [List.mem_singleton] at h
    rw [h]

/-- The keys `GetParams.EncodeQueryString` can emit are fields, exclude_fields, count,
offset, field_type and required; a non-empty FieldType is emitted under `field_type`, and
the key `type` is never emitted. -/
theorem GetParams_query_keys (gp : GetParams) :
    (∀ kv ∈ gp.EncodeQueryString,
      kv.1 ∈ ["fields", "exclude_fields", "count", "offset", "field_type", "required"])
    ∧ (gp.FieldType ≠ "" → ("field_type", gp.FieldType) ∈ gp.EncodeQueryString)
    ∧ "type" ∉ gp.EncodeQueryString.map Prod.fst := by
  have hk : ∀ kv ∈ gp.EncodeQueryString,
      kv.1 ∈ ["fields", "exclude_fields", "count", "offset", "field_type", "required"] := by
    intro kv h
    rw [GetParams_EncodeQueryString_eq] at h
    simp only [List.mem_append] at h
    rcases h with h | h | h | h | h | h <;> simp [mem_param h]
  refine ⟨hk, ?_, ?_⟩
  · intro h
    rw [GetParams_EncodeQueryString_eq]
    simp [param, query.Value.isEmpty, query.Value.render, h]
  · intro h
    rw [List.mem_map] at h
    obtain ⟨kv, hkv, he⟩ := h
    have := hk kv hkv
    rw [he] at this
    revert this
    decide

/-- C4, at the failing input: for a `GetParams` whose only set field is FieldType `text`,
the struct that `EncodeQueryString` hands to the encoder names its fields fields,
exclude_fields, count, offset, field_type and required, and the query string has the
field type under the key `field_type`, which is none of fields, exclude_fields, count,
offset, type, required; no `type` parameter is emitted. -/
theorem GetParams_field_type_emitted_as_field_type :
    (GetParams.encodedStruct ⟨[], [], 0, 0, TypeText, false⟩).map
        (fun f => reflect.Get f.Tag "url")
      = ["fields,omitempty", "exclude_fields,omitempty", "count,omitempty", "offset,omitempty",
         "field_type,omitempty", "required,omitempty"]
    ∧ GetParams.EncodeQueryString ⟨[], [], 0, 0, TypeText, false⟩ = [("field_type", "text")]
    ∧ "field_type" ∉ ["fields", "exclude_fields", "count", "offset", "type", "required"]
    ∧ (GetParams.EncodeQueryString ⟨[], [], 0, 0, TypeText, false⟩).lookup "type" = none := by
  decide

/-- C5, at the failing input: GetMergeField takes a `GetParams`, and hands it to the
gateway as it is; with count 10, offset 5, field type `text` and required set, the query
parameters of its call encode to count, offset, field_type and required parameters. -/
theorem GetMergeField_sends_list_filters :
    queryStrings (GetMergeField acceptingGateway () "abc" 7
        (some ⟨["name"], [], 10, 5, TypeText, true⟩)).calls
      = [some [("fields", "name"), ("count", "10"), ("offset", "5"), ("field_type", "text"),
          ("required", "true")]]
    ∧ (GetMergeField acceptingGateway () "abc" 7
        (some ⟨["name"], [], 10, 5, TypeText, true⟩)).calls.map CallRecord.queryParams
      = [QueryParams.getParams ⟨["name"], [], 10, 5, TypeText, true⟩] := by
  decide

/-- GetMergeField hands its params, a `GetParams`, to the gateway unchanged, so the query
string of its call is the one `GetParams.EncodeQueryString` gives. -/
theorem GetMergeField_query {σ : Type} (gw : Gateway σ) (s : σ) (listID : String)
    (mergeID : Int) (p : GetParams) :
    queryStrings (GetMergeField gw s listID mergeID (some p)).calls
      = [some p.EncodeQueryString] := by
  have h := (GetMergeField_run gw s listID mergeID (some p)).1
  simp only at h
  rw [h]
  rfl

/-! ## Joining field names -/

theorem intercalate_go_eq_foldl (sep : String) (rest : List String) (e : String) :
    String.intercalate.go e sep rest = rest.foldl (fun b s => b ++ sep ++ s) e := by
  induction rest generalizing e with
  | nil => rfl
  | cons a as ih => simp [String.intercalate.go, ih]

/-- `strings.Join` is the join of the elements, in order, with the separator between
neighbours. -/
theorem Join_eq_intercalate (elems : List String) (sep : String) :
    strings.Join elems sep = sep.intercalate elems := by
  match elems with
  | [] => rfl
  | [e] => rfl
  | e :: f :: rest => simp [strings.Join, String.intercalate, intercalate_go_eq_foldl]

theorem commas_append (a b : String) : commas (a ++ b) = commas a + commas b := by
  simp [commas, String.data_append, List.count_append]

theorem commas_foldl (rest : List String) (e : String) :
    commas (rest.foldl (fun b s => b ++ "," ++ s) e)
      = commas e + (rest.map commas).sum + rest.length := by
  induction rest generalizing e with
  | nil => simp
  | cons a as ih =>
    have hc : commas "," = 1 := by decide
    simp only [List.foldl_cons, ih, commas_append, hc, List.map_cons, List.sum_cons,
      List.length_cons]
    omega

/-- Joining `n ≥ 1` elements with commas adds exactly `n - 1` commas to those the
elements hold themselves. -/
theorem commas_Join (x : String) (xs : List String) :
    commas (strings.Join (x :: xs) ",") = ((x :: xs).map commas).sum + xs.length := by
  cases xs with
  | nil => simp [strings.Join]
  | cons y ys =>
    simp only [strings.Join, commas_foldl, List.map_cons, List.sum_cons, List.length_cons]

theorem lookup_param_same (k : String) (s : String) (rest : QueryString) :
    (param k (.string s) ++ rest).lookup k = if s = "" then rest.lookup k else some s := by
  unfold param
  by_cases h : s = ""
  · simp [query.Value.isEmpty, h]
  · simp [query.Value.isEmpty, query.Value.render, h, List.lookup]

theorem lookup_param_other (k j : String) (v : query.Value) (rest : QueryString)
    (h : (k == j) = false) : (param j v ++ rest).lookup k = rest.lookup k := by
  unfold param
  split
  · simp
  · simp [List.lookup, h]

theorem lookup_param_last (k j : String) (v : query.Value) (h : (k == j) = false) :
    (param j v).lookup k = none := by
  unfold param
  split
  · simp
  · simp [List.lookup, h]

theorem lookup_eq_none_not_mem (k : String) (q : QueryString) (h : q.lookup k = none) :
    k ∉ q.map Prod.fst := by
  induction q with
  | nil => simp
  | cons kv rest ih =>
    obtain ⟨a, b⟩ := kv
    rw [List.lookup] at h
    split at h
    · simp at h
    · rename_i hne
      have hak : ¬ (k = a) := by simpa using hne
      simp only [List.map_cons, List.mem_cons, not_or]
      exact ⟨hak, ih h⟩

/-- C8: `EncodeQueryString`, of `GetParams` and of `GetMergeFieldParams`, hands the
encoder `strings.Join(Fields, ",")` and `strings.Join(ExcludeFields, ",")` in fields
tagged `fields,omitempty` and `exclude_fields,omitempty`, and so emits under
`fields` the elements of Fields joined by "," in their original order, and under
`exclude_fields` those of ExcludeFields; the key is left out exactly when the joined
value is empty. A single element is emitted as it is; joining `n ≥ 1` elements puts
exactly `n - 1` separating commas between them; an empty list gives the empty string and
the key is omitted. -/
theorem fields_are_comma_joined (gp : GetParams) (gm : GetMergeFieldParams) :
    (∃ rest, gp.encodedStruct
      = ⟨"Fields", "url:\"fields,omitempty\"", .string (strings.Join gp.Fields ",")⟩
        :: ⟨"ExcludeFields", "url:\"exclude_fields,omitempty\"",
            .string (strings.Join gp.ExcludeFields ",")⟩ :: rest)
    ∧ gm.encodedStruct
      = [⟨"Fields", "url:\"fields,omitempty\"", .string (strings.Join gm.Fields ",")⟩,
         ⟨"ExcludeFields", "url:\"exclude_fields,omitempty\"",
            .string (strings.Join gm.ExcludeFields ",")⟩]
    ∧ (gp.EncodeQueryString.lookup "fields"
      = if ",".intercalate gp.Fields = "" then none else some (",".intercalate gp.Fields))
    ∧ (gp.EncodeQueryString.lookup "exclude_fields"
      = if ",".intercalate gp.ExcludeFields = "" then none
        else some (",".intercalate gp.ExcludeFields))
    ∧ (gm.EncodeQueryString.lookup "fields"
      = if ",".intercalate gm.Fields = "" then none else some (",".intercalate gm.Fields))
    ∧ (gm.EncodeQueryString.lookup "exclude_fields"
      = if ",".intercalate gm.ExcludeFields = "" then none
        else some (",".intercalate gm.ExcludeFields))
    ∧ (∀ xs : List String, strings.Join xs "," = ",".intercalate xs)
    ∧ (∀ x : String, strings.Join [x] "," = x)
    ∧ (∀ (x : String) (xs : List String),
        commas (strings.Join (x :: xs) ",") = ((x :: xs).map commas).sum + xs.length)
    ∧ strings.Join [] "," = ""
    ∧ (gp.Fields = [] → "fields" ∉ gp.EncodeQueryString.map Prod.fst)
    ∧ (gp.ExcludeFields = [] → "exclude_fields" ∉ gp.EncodeQueryString.map Prod.fst)
    ∧ (gm.Fields = [] → "fields" ∉ gm.EncodeQueryString.map Prod.fst)
    ∧ (gm.ExcludeFields = [] → "exclude_fields" ∉ gm.EncodeQueryString.map Prod.fst) := by
  have h1 : gp.EncodeQueryString.lookup "fields"
      = if ",".intercalate gp.Fields = "" then none else some (",".intercalate gp.Fields) := by
    rw [GetParams_EncodeQueryString_eq, lookup_param_same,
      lookup_param_other _ _ _ _ (by decide), lookup_param_other _ _ _ _ (by decide),
      lookup_param_other _ _ _ _ (by decide), lookup_param_other _ _ _ _ (by decide),
      lookup_param_last _ _ _ (by decide), Join_eq_intercalate]
  have h2 : gp.EncodeQueryString.lookup "exclude_fields"
      = if ",".intercalate gp.ExcludeFields = "" then none
        else some (",".intercalate gp.ExcludeFields) := by
    rw [GetParams_EncodeQueryString_eq, lookup_param_other _ _ _ _ (by decide),
      lookup_param_same,
      lookup_param_other _ _ _ _ (by decide), lookup_param_other _ _ _ _ (by decide),
      lookup_param_other _ _ _ _ (by decide),
      lookup_param_last _ _ _ (by decide), Join_eq_intercalate]
  have h3 : gm.EncodeQueryString.lookup "fields"
      = if ",".intercalate gm.Fields = "" then none else some (",".intercalate gm.Fields) := by
    rw [GetMergeFieldParams_EncodeQueryString_eq, lookup_param_same,
      lookup_param_last _ _ _ (by decide), Join_eq_intercalate]
  have h4 : gm.EncodeQueryString.lookup "exclude_fields"
      = if ",".intercalate gm.ExcludeFields = "" then none
        else some (",".intercalate gm.ExcludeFields) := by
    rw [GetMergeFieldParams_EncodeQueryString_eq, lookup_param_other _ _ _ _ (by decide),
      ← List.append_nil (param "exclude_fields" _), lookup_param_same, Join_eq_intercalate]
    simp [List.lookup]
  refine ⟨⟨_, rfl⟩, rfl, h1, h2, h3, h4, fun xs => Join_eq_intercalate xs ",", fun _ => rfl,
    commas_Join, rfl, ?_, ?_, ?_, ?_⟩
  · intro h
    apply lookup_eq_none_not_mem
    rw [h1, h]
    rfl
  · intro h
    apply lookup_eq_none_not_mem
    rw [h2, h]
    rfl
  · intro h
    apply lookup_eq_none_not_mem
    rw [h3, h]
    rfl
  · intro h
    apply lookup_eq_none_not_mem
    rw [h4, h]
    rfl

/-! ## Request bodies -/

theorem json_key_tag (v : JSON) :
    json.fieldKey ⟨"Tag", "json:\"tag,omitempty\"", v⟩ = some ("tag", true) := rfl

theorem json_key_name (v : JSON) :
    json.fieldKey ⟨"Name", "json:\"name\"", v⟩ = some ("name", false) := rfl

theorem json_key_type (v : JSON) :
    json.fieldKey ⟨"Type", "json:\"type\"", v⟩ = some ("type", false) := rfl

theorem json_key_required (v : JSON) :
    json.fieldKey ⟨"Required", "json:\"required,omitempty\"", v⟩ = some ("required", true) :=
  rfl

/-- The tag of `DefaultValue` lacks the colon after `json`, so it has no `json` key: the
field goes under its Go name and is never omitted. -/
theorem json_key_DefaultValue (v : JSON) :
    json.fieldKey ⟨"DefaultValue", "json\"default_value,omitempty\"", v⟩
      = some ("DefaultValue", false) := rfl

theorem json_key_public (v : JSON) :
    json.fieldKey ⟨"Public", "json:\"public,omitempty\"", v⟩ = some ("public", true) := rfl

theorem json_key_display_order (v : JSON) :
    json.fieldKey ⟨"DisplayOrder", "json:\"display_order,omitempty\"", v⟩
      = some ("display_order", true) := rfl

theorem json_key_options (v : JSON) :
    json.fieldKey ⟨"Options", "json:\"options,omitempty\"", v⟩ = some ("options", true) := rfl

theorem json_key_help_text (v : JSON) :
    json.fieldKey ⟨"HelpText", "json:\"help_text,omitempty\"", v⟩ = some ("help_text", true) :=
  rfl

theorem structMembers_nil : json.structMembers [] = [] := rfl

theorem structMembers_cons (name tag k : String) (o : Bool) (v : JSON) (fs : List json.Field)
    (h : ∀ v, json.fieldKey ⟨name, tag, v⟩ = some (k, o)) :
    json.structMembers (⟨name, tag, v⟩ :: fs) = member k o v ++ json.structMembers fs := by
  unfold json.structMembers member
  rw [List.filterMap_cons, h v]
  cases hv : (o && v.isEmptyValue) <;> simp [hv]

/-- The body of a `NewParams`, member by member. -/
theorem NewParams_Marshal_eq (p : NewParams) :
    p.Marshal = .object
      (member "tag" true (.string p.Tag)
        ++ (member "name" false (.string p.Name)
        ++ (member "type" false (.string p.Type_)
        ++ (member "required" true (.bool p.Required)
        ++ (member "DefaultValue" false (.string p.DefaultValue)
        ++ (member "public" true (.bool p.Public)
        ++ (member "display_order" true (.number p.DisplayOrder)
        ++ (member "options" true (Options.marshalPtr p.Options)
        ++ member "help_text" true (.string p.HelpText))))))))) := by
  unfold NewParams.Marshal NewParams.fields json.marshalStruct
  rw [structMembers_cons _ _ _ _ _ _ json_key_tag, structMembers_cons _ _ _ _ _ _ json_key_name,
    structMembers_cons _ _ _ _ _ _ json_key_type,
    structMembers_cons _ _ _ _ _ _ json_key_required,
    structMembers_cons _ _ _ _ _ _ json_key_DefaultValue,
    structMembers_cons _ _ _ _ _ _ json_key_public,
    structMembers_cons _ _ _ _ _ _ json_key_display_order,
    structMembers_cons _ _ _ _ _ _ json_key_options,
    structMembers_cons _ _ _ _ _ _ json_key_help_text, structMembers_nil, List.append_nil]

/-- The body of an `UpdateParams`, member by member. -/
theorem UpdateParams_Marshal_eq (p : UpdateParams) :
    p.Marshal = .object
      (member "tag" true (.string p.Tag)
        ++ (member "name" false (.string p.Name)
        ++ (member "required" true (.bool p.Required)
        ++ (member "DefaultValue" false (.string p.DefaultValue)
        ++ (member "public" true (.bool p.Public)
        ++ (member "display_order" true (.number p.DisplayOrder)
        ++ (member "options" true (Options.marshalPtr p.Options)
        ++ member "help_text" true (.string p.HelpText)))))))) := by
  unfold UpdateParams.Marshal UpdateParams.fields json.marshalStruct
  rw [structMembers_cons _ _ _ _ _ _ json_key_tag, structMembers_cons _ _ _ _ _ _ json_key_name,
    structMembers_cons _ _ _ _ _ _ json_key_required,
    structMembers_cons _ _ _ _ _ _ json_key_DefaultValue,
    structMembers_cons _ _ _ _ _ _ json_key_public,
    structMembers_cons _ _ _ _ _ _ json_key_display_order,
    structMembers_cons _ _ _ _ _ _ json_key_options,
    structMembers_cons _ _ _ _ _ _ json_key_help_text, structMembers_nil, List.append_nil]

theorem isEmptyValue_string (s : String) : (JSON.string s).isEmptyValue = (s == "") := rfl

theorem isEmptyValue_bool (b : Bool) : (JSON.bool b).isEmptyValue = !b := rfl

theorem isEmptyValue_number (n : Int) : (JSON.number n).isEmptyValue = (n == 0) := rfl

/-- An options pointer is empty exactly when it is nil. -/
theorem isEmptyValue_options (o : Option Options) :
    (Options.marshalPtr o).isEmptyValue = o.isNone := by
  cases o <;> rfl

theorem keys_member (k : String) (o : Bool) (v : JSON) :
    (member k o v).map Prod.fst = if o && v.isEmptyValue then [] else [k] := by
  unfold member
  split <;> rfl

/-- The keys of the body of an `UpdateParams`: `name` and `DefaultValue` always, each
other one when its field is set; never `type`. -/
theorem UpdateParams_Marshal_keys (p : UpdateParams) :
    p.Marshal.keys
      = (if p.Tag = "" then [] else ["tag"]) ++ ["name"]
        ++ (if p.Required then ["required"] else []) ++ ["DefaultValue"]
        ++ (if p.Public then ["public"] else [])
        ++ (if p.DisplayOrder = 0 then [] else ["display_order"])
        ++ (if p.Options = none then [] else ["options"])
        ++ (if p.HelpText = "" then [] else ["help_text"]) := by
  rw [UpdateParams_Marshal_eq]
  simp only [JSON.keys, List.map_append, keys_member, isEmptyValue_string, isEmptyValue_bool,
    isEmptyValue_number, isEmptyValue_options, Bool.true_and, Bool.false_and]
  cases hr : p.Required <;> cases hp : p.Public <;> cases ho : p.Options <;> simp

/-- The keys of the body of a `NewParams`: `name`, `type` and `DefaultValue` always, each
other one when its field is set. -/
theorem NewParams_Marshal_keys (p : NewParams) :
    p.Marshal.keys
      = (if p.Tag = "" then [] else ["tag"]) ++ ["name", "type"]
        ++ (if p.Required then ["required"] else []) ++ ["DefaultValue"]
        ++ (if p.Public then ["public"] else [])
        ++ (if p.DisplayOrder = 0 then [] else ["display_order"])
        ++ (if p.Options = none then [] else ["options"])
        ++ (if p.HelpText = "" then [] else ["help_text"]) := by
  rw [NewParams_Marshal_eq]
  simp only [JSON.keys, List.map_append, keys_member, isEmptyValue_string, isEmptyValue_bool,
    isEmptyValue_number, isEmptyValue_options, Bool.true_and, Bool.false_and]
  cases hr : p.Required <;> cases hp : p.Public <;> cases ho : p.Options <;> simp

/-- C6, as stated, fails: for an `UpdateParams` with Tag `ADDR2`, the body Update hands to
the gateway has the keys tag, name and DefaultValue, so it is not true that every body is
free of both a tag key and a type key. -/
theorem Update_body_holds_tag :
    bodyKeys (Update acceptingGateway () "abc" 7
        (some ⟨"ADDR2", "Address", false, "", false, 0, none, ""⟩)).calls
      = [some ["tag", "name", "DefaultValue"]]
    ∧ ¬ (∀ c ∈ (Update acceptingGateway () "abc" 7
          (some ⟨"ADDR2", "Address", false, "", false, 0, none, ""⟩)).calls,
        ∀ ks, c.body.Marshal.map JSON.keys = some ks → "tag" ∉ ks ∧ "type" ∉ ks) := by
  have hc : (Update acceptingGateway () "abc" 7
      (some ⟨"ADDR2", "Address", false, "", false, 0, none, ""⟩)).calls
      = [⟨"PATCH", "lists/abc/merge-fields/7", .nil,
          .updateParams (some ⟨"ADDR2", "Address", false, "", false, 0, none, ""⟩),
          .mergeField, none⟩] := by decide
  refine ⟨by decide, ?_⟩
  intro h
  have h1 := h _ (by rw [hc]; exact List.mem_singleton.mpr rfl)
    ["tag", "name", "DefaultValue"] (by decide)
  exact h1.1 (by decide)

/-- C6 (amended): for every UpdateParams value `p`, the one gateway call of Update carries
`p` as its body; the JSON document of that body never has a type key, and has a tag key
exactly when `p.Tag` is non-empty, holding that tag. -/
theorem Update_body_has_no_type_and_tag_when_set {σ : Type} (gw : Gateway σ) (s : σ)
    (listID : String) (mergeID : Int) (p : UpdateParams) :
    (Update gw s listID mergeID (some p)).calls.map CallRecord.body
      = [Body.updateParams (some p)]
    ∧ bodyKeys (Update gw s listID mergeID (some p)).calls = [some p.Marshal.keys]
    ∧ "type" ∉ p.Marshal.keys
    ∧ ("tag" ∈ p.Marshal.keys ↔ p.Tag ≠ "")
    ∧ (p.Tag ≠ "" → p.Marshal.lookup "tag" = some (.string p.Tag)) := by
  have h := (Update_some_run gw s listID mergeID p).1
  simp only at h
  refine ⟨by rw [h]; rfl, by rw [h]; rfl, ?_, ?_, ?_⟩
  · rw [UpdateParams_Marshal_keys]
    simp only [List.mem_append, not_or]
    refine ⟨⟨⟨⟨⟨⟨⟨?_, ?_⟩, ?_⟩, ?_⟩, ?_⟩, ?_⟩, ?_⟩, ?_⟩ <;> first | decide | (split <;> decide)
  · rw [UpdateParams_Marshal_keys]
    by_cases ht : p.Tag = ""
    · simp only [ht, if_true, List.nil_append, List.mem_append, ne_eq, not_true_eq_false,
        iff_false, not_or]
      refine ⟨⟨⟨⟨⟨⟨?_, ?_⟩, ?_⟩, ?_⟩, ?_⟩, ?_⟩, ?_⟩ <;> first | decide | (split <;> decide)
    · simp [ht]
  · intro ht
    rw [UpdateParams_Marshal_eq]
    simp [member, JSON.lookup, isEmptyValue_string, ht]

/-- C7, at the failing input: a `NewParams` (and an `UpdateParams`) with every optional
field unset is marshalled with a `DefaultValue` member holding the empty string; a set
default value goes under `DefaultValue` too, never under `default_value`. -/
theorem DefaultValue_marshalled_under_go_name :
    (NewParams.Marshal ⟨"", "Address", "address", false, "", false, 0, none, ""⟩).keys
      = ["name", "type", "DefaultValue"]
    ∧ (UpdateParams.Marshal ⟨"", "Address", false, "", false, 0, none, ""⟩).keys
      = ["name", "DefaultValue"]
    ∧ (NewParams.Marshal ⟨"", "Address", "address", false, "n/a", false, 0, none, ""⟩).keys
      = ["name", "type", "DefaultValue"]
    ∧ (UpdateParams.Marshal ⟨"", "Address", false, "n/a", false, 0, none, ""⟩).keys
      = ["name", "DefaultValue"]
    ∧ bodyKeys (New acceptingGateway () "abc"
        (some ⟨"", "Address", "address", false, "", false, 0, none, ""⟩)).calls
      = [some ["name", "type", "DefaultValue"]] := by
  decide

/-- What holds of C7 for every params value: the body always has a `DefaultValue` member
and never a `default_value` one; tag, required, public, display_order, options and
help_text are present exactly when their field is set. -/
theorem optional_members_of_bodies (n : NewParams) (u : UpdateParams) :
    "DefaultValue" ∈ n.Marshal.keys ∧ "default_value" ∉ n.Marshal.keys
    ∧ "DefaultValue" ∈ u.Marshal.keys ∧ "default_value" ∉ u.Marshal.keys
    ∧ n.Marshal.keys
      = (if n.Tag = "" then [] else ["tag"]) ++ ["name", "type"]
        ++ (if n.Required then ["required"] else []) ++ ["DefaultValue"]
        ++ (if n.Public then ["public"] else [])
        ++ (if n.DisplayOrder = 0 then [] else ["display_order"])
        ++ (if n.Options = none then [] else ["options"])
        ++ (if n.HelpText = "" then [] else ["help_text"])
    ∧ u.Marshal.keys
      = (if u.Tag = "" then [] else ["tag"]) ++ ["name"]
        ++ (if u.Required then ["required"] else []) ++ ["DefaultValue"]
        ++ (if u.Public then ["public"] else [])
        ++ (if u.DisplayOrder = 0 then [] else ["display_order"])
        ++ (if u.Options = none then [] else ["options"])
        ++ (if u.HelpText = "" then [] else ["help_text"]) := by
  refine ⟨?_, ?_, ?_, ?_, NewParams_Marshal_keys n, UpdateParams_Marshal_keys u⟩
  · rw [NewParams_Marshal_keys]
    simp
  · rw [NewParams_Marshal_keys]
    simp only [List.mem_append, not_or]
    refine ⟨⟨⟨⟨⟨⟨⟨?_, ?_⟩, ?_⟩, ?_⟩, ?_⟩, ?_⟩, ?_⟩, ?_⟩ <;> first | decide | (split <;> decide)
  · rw [UpdateParams_Marshal_keys]
    simp
  · rw [UpdateParams_Marshal_keys]
    simp only [List.mem_append, not_or]
    refine ⟨⟨⟨⟨⟨⟨⟨?_, ?_⟩, ?_⟩, ?_⟩, ?_⟩, ?_⟩, ?_⟩, ?_⟩ <;> first | decide | (split <;> decide)

/-! ## Reading the help text back -/

/-- The wire names under which a merge field is decoded. -/
theorem MergeField_wireNames :
    json.wireNames MergeField.tags =
      [("MergeID", "merge_id"), ("Tag", "tag"), ("Name", "name"), ("Type", "type"),
       ("Required", "required"), ("DefaultValue", "default_value"), ("Public", "public"),
       ("DisplayOrder", "display_order"), ("Options", "options"), ("HelpText", "HelpText"),
       ("ListID", "list_id")] := by
  decide

/-- A response member `help_text` leaves the help text of any record as it was. -/
theorem Unmarshal_help_text_skipped (m : MergeField) (v : JSON) :
    (m.Unmarshal (.object [("help_text", v)])) = m := by
  have h : json.findField (json.wireNames MergeField.tags) "help_text" = none := by decide
  simp [MergeField.Unmarshal, h]

/-- C10, at the failing input: a help text submitted through NewParams goes out under
`help_text`, but a response carrying `help_text` is decoded into a MergeField whose
HelpText stays empty: the key resolves to no field of MergeField, whose HelpText is
read from `HelpText` (in any letter case) instead. -/
theorem help_text_not_read_back :
    (NewParams.Marshal
        ⟨"ADDRESS", "Address", "address", false, "", false, 0, none, "Your address"⟩).keys
      = ["tag", "name", "type", "DefaultValue", "help_text"]
    ∧ json.findField (json.wireNames MergeField.tags) "help_text" = none
    ∧ MergeField.zero.Unmarshal (.object [("merge_id", .number 3), ("tag", .string "ADDRESS"),
        ("name", .string "Address"), ("type", .string "address"),
        ("help_text", .string "Your address"), ("list_id", .string "abc")])
      = ⟨3, "ADDRESS", "Address", "address", false, "", false, 0, none, "", "abc"⟩
    ∧ (MergeField.zero.Unmarshal (.object [("help_text", .string "Your address")])).HelpText = ""
    ∧ (MergeField.zero.Unmarshal (.object [("HelpText", .string "Your address")])).HelpText
      = "Your address"
    ∧ (MergeField.zero.Unmarshal (.object [("helptext", .string "Your address")])).HelpText
      = "Your address" := by
  decide

/-! ## Struct tags, on the tags of this package -/

/-- A well-formed tag yields its `json` value; the tag written without the colon yields
none; a later key of a tag with several is found. -/
theorem StructTag_Get_samples :
    reflect.Get "json:\"tag,omitempty\"" "json" = "tag,omitempty"
    ∧ reflect.Get "json\"default_value,omitempty\"" "json" = ""
    ∧ reflect.Get "url:\"field_type,omitempty\"" "url" = "field_type,omitempty"
    ∧ reflect.Get "url:\"a\" json:\"b\"" "json" = "b"
    ∧ reflect.Get "" "json" = "" := by
  decide

/-- Sample renderings of paths, integers and joins. -/
theorem rendering_samples :
    fmt.Sprintf "lists/%s/merge-fields/%s" ["ab", strconv.Itoa 12] = "lists/ab/merge-fields/12"
    ∧ strconv.Itoa (-12) = "-12"
    ∧ strconv.Itoa 0 = "0"
    ∧ strings.Join ["a", "b", "c"] "," = "a,b,c"
    ∧ GetMergeFieldParams.EncodeQueryString ⟨["a", "b"], ["c"]⟩
      = [("fields", "a,b"), ("exclude_fields", "c")] := by
  decide

end Mergefields
